import Mathlib

/-!
Shallow embedding of the file-backed record store of the
`free-course-backend` repository (`ServerlessDatabase`, the
serverless-compatible database module).

Modelling conventions:
* JavaScript wall-clock time (`Date.now()` for identifiers, and
  `new Date().toISOString()` for the `enrolled_at` / `submitted_at`
  timestamps, which the sort comparators parse back to milliseconds)
  is modelled as a single `now : Nat` parameter, in milliseconds,
  passed to each mutating operation.
* The JSON files on disk (`enrollments.json`, `contact.json`) are
  modelled as the `fileEnrollments` / `fileContacts` fields of the
  state; `fs.writeFile` either succeeds (replacing the file content
  wholesale) or fails, which is modelled by the `fsOk : Bool`
  parameter of the save helpers.  The JS save helpers catch a write
  error and merely log it, returning normally either way, and the
  embedding reproduces that.
* `Array.prototype.sort` is required by the ECMAScript standard to be
  stable and sorts in place; it is modelled by `List.mergeSort` (a
  stable sort) together with writing the sorted list back into the
  state.
* A JavaScript `Set`, and the key list of a plain object built by
  repeated insertion (`Object.entries` order for string keys), keep
  the first occurrence of each element in insertion order; both are
  modelled by `dedupFirst`, which keeps first occurrences in order.
* The `throw new Error('User already enrolled in this course')` in
  `createEnrollment` is the store's duplicate-enrollment failure
  condition, modelled as `DBError.duplicateEnrollment`.
-/

/-- An enrollment record, as built by `createEnrollment`:
`{ id, email, name, course_title, enrolled_at }`. -/
structure Enrollment where
  id : Nat
  email : String
  name : String
  course_title : String
  enrolled_at : Nat
deriving Repr, DecidableEq

/-- A contact-form record, as built by `createContactSubmission`:
`{ id, name, email, subject, message, submitted_at }`. -/
structure ContactSubmission where
  id : Nat
  name : String
  email : String
  subject : String
  message : String
  submitted_at : Nat
deriving Repr, DecidableEq

/-- One element of the `enrollmentsByCourse` list returned by
`getEnrollmentStats`: `{ course_title, enrollments }`. -/
structure CourseCount where
  course_title : String
  enrollments : Nat
deriving Repr, DecidableEq

/-- The result object of `getEnrollmentStats`. -/
structure EnrollmentStats where
  totalEnrollments : Nat
  uniqueUsers : Nat
  enrollmentsByCourse : List CourseCount
deriving Repr, DecidableEq

/-- The store's failure conditions surfaced to callers. -/
inductive DBError where
  | duplicateEnrollment
deriving Repr, DecidableEq

/-- The state of the `ServerlessDatabase` singleton: the in-memory
`this.data` object (two arrays), the `this.initialized` flag, and the
contents of the two JSON files on disk. -/
structure DBState where
  enrollments : List Enrollment
  contactSubmissions : List ContactSubmission
  initFlag : Bool
  fileEnrollments : List Enrollment
  fileContacts : List ContactSubmission
deriving Repr, DecidableEq

/-- The constructor state of the singleton together with absent data
files (reading an absent file yields the empty default document). -/
def emptyStore : DBState :=
  ⟨[], [], false, [], []⟩

namespace ServerlessDatabase

/-- `init()`: a no-op once `initialized` is set; otherwise loads the
persisted collections from the two files into memory and sets the
flag. -/
def init (s : DBState) : DBState :=
  if s.initFlag then s
  else
    { s with
      enrollments := s.fileEnrollments
      contactSubmissions := s.fileContacts
      initFlag := true }

/-- `saveEnrollments()`: writes `this.data.enrollments` to the
enrollments file; a write error is caught and logged, so the method
returns normally either way and on failure the file keeps its old
content. -/
def saveEnrollments (s : DBState) (fsOk : Bool) : DBState :=
  if fsOk then { s with fileEnrollments := s.enrollments } else s

/-- `saveContact()`: writes `this.data.contactSubmissions` to the
contact file; a write error is caught and logged, so the method
returns normally either way. -/
def saveContact (s : DBState) (fsOk : Bool) : DBState :=
  if fsOk then { s with fileContacts := s.contactSubmissions } else s

/-- The comparator `(a, b) => new Date(b.enrolled_at) - new
Date(a.enrolled_at)` used by `getAllEnrollments`: descending by
`enrolled_at`. -/
def enrolledDesc (a b : Enrollment) : Bool :=
  b.enrolled_at ≤ a.enrolled_at

/-- `getAllEnrollments()`: sorts `this.data.enrollments` in place,
descending by `enrolled_at`, and returns the sorted array. -/
def getAllEnrollments (s : DBState) : List Enrollment × DBState :=
  let s := init s
  let sorted := s.enrollments.mergeSort enrolledDesc
  (sorted, { s with enrollments := sorted })

/-- The predicate of the `find` in `getEnrollmentByCourseAndEmail`:
`enrollment.course_title === courseTitle && enrollment.email ===
email`. -/
def matchesCourseEmail (courseTitle email : String) (e : Enrollment) : Bool :=
  e.course_title == courseTitle && e.email == email

/-- `getEnrollmentByCourseAndEmail(courseTitle, email)`: `find` over
`this.data.enrollments` (first match or `undefined`). -/
def getEnrollmentByCourseAndEmail (s : DBState) (courseTitle email : String) :
    Option Enrollment × DBState :=
  let s := init s
  (s.enrollments.find? (matchesCourseEmail courseTitle email), s)

/-- `createEnrollment(email, name, courseTitle)`: checks for an
existing (courseTitle, email) match; if found, throws the
duplicate-enrollment error; otherwise builds the record with
`id: Date.now()` and `enrolled_at` the current time, pushes it onto
`this.data.enrollments`, saves, and returns it. -/
def createEnrollment (s : DBState) (email name courseTitle : String)
    (now : Nat) (fsOk : Bool) : Except DBError Enrollment × DBState :=
  let found := getEnrollmentByCourseAndEmail s courseTitle email
  match found.1 with
  | some _ => (Except.error DBError.duplicateEnrollment, found.2)
  | none =>
      let e : Enrollment :=
        { id := now
          email := email
          name := name
          course_title := courseTitle
          enrolled_at := now }
      let s := { found.2 with enrollments := found.2.enrollments ++ [e] }
      (Except.ok e, saveEnrollments s fsOk)

/-- First-occurrence deduplication, in order: the semantics of filling
a JavaScript `Set` (for `uniqueUsers`) and of the string-keyed object
`byCourse` whose `Object.entries` come back in key insertion order. -/
def dedupFirst : List String → List String
  | [] => []
  | x :: xs => x :: dedupFirst (xs.filter (fun y => y != x))
termination_by l => l.length
decreasing_by
  simp only [List.length_cons]
  exact Nat.lt_succ_of_le (List.length_filter_le _ _)

/-- The comparator `(a, b) => b.enrollments - a.enrollments` used on
`enrollmentsByCourse`: descending by count. -/
def countDesc (a b : CourseCount) : Bool :=
  b.enrollments ≤ a.enrollments

/-- `getEnrollmentStats()`: total count, `Set` size of the emails, and
the per-course counts (grouped in first-occurrence order of the course
titles, then sorted descending by count). -/
def getEnrollmentStats (s : DBState) : EnrollmentStats × DBState :=
  let s := init s
  let totalEnrollments := s.enrollments.length
  let uniqueUsers := (dedupFirst (s.enrollments.map (·.email))).length
  let byCourse :=
    (dedupFirst (s.enrollments.map (·.course_title))).map
      (fun c =>
        CourseCount.mk c
          (s.enrollments.countP (fun e => e.course_title == c)))
  let enrollmentsByCourse := byCourse.mergeSort countDesc
  (⟨totalEnrollments, uniqueUsers, enrollmentsByCourse⟩, s)

/-- `createContactSubmission(name, email, subject, message)`: builds
the record with `id: Date.now()` and the current `submitted_at`,
pushes it onto `this.data.contactSubmissions` unconditionally, saves,
and returns it. -/
def createContactSubmission (s : DBState) (name email subject message : String)
    (now : Nat) (fsOk : Bool) : ContactSubmission × DBState :=
  let s := init s
  let sub : ContactSubmission :=
    { id := now
      name := name
      email := email
      subject := subject
      message := message
      submitted_at := now }
  let s := { s with contactSubmissions := s.contactSubmissions ++ [sub] }
  (sub, saveContact s fsOk)

/-- The comparator used by `getAllContactSubmissions`: descending by
`submitted_at`. -/
def submittedDesc (a b : ContactSubmission) : Bool :=
  b.submitted_at ≤ a.submitted_at

/-- `getAllContactSubmissions()`: sorts `this.data.contactSubmissions`
in place, descending by `submitted_at`, and returns the sorted
array. -/
def getAllContactSubmissions (s : DBState) : List ContactSubmission × DBState :=
  let s := init s
  let sorted := s.contactSubmissions.mergeSort submittedDesc
  (sorted, { s with contactSubmissions := sorted })

end ServerlessDatabase

open ServerlessDatabase

/-- One invocation of any public method of the store, relating the
state before to the state after (the methods' arguments are
arbitrary). -/
inductive DBStep : DBState → DBState → Prop where
  | initS (s : DBState) : DBStep s (init s)
  | listE (s : DBState) : DBStep s (getAllEnrollments s).2
  | findE (s : DBState) (c e : String) :
      DBStep s (getEnrollmentByCourseAndEmail s c e).2
  | createE (s : DBState) (em n c : String) (now : Nat) (fsOk : Bool) :
      DBStep s (createEnrollment s em n c now fsOk).2
  | statsE (s : DBState) : DBStep s (getEnrollmentStats s).2
  | createC (s : DBState) (n em su me : String) (now : Nat) (fsOk : Bool) :
      DBStep s (createContactSubmission s n em su me now fsOk).2
  | listC (s : DBState) : DBStep s (getAllContactSubmissions s).2

/-- States reachable from the fresh, empty store by any sequence of
store operations. -/
inductive DBReachable : DBState → Prop where
  | empty : DBReachable emptyStore
  | step {s s' : DBState} : DBReachable s → DBStep s s' → DBReachable s'

/-- The (email, course_title) key of an enrollment record. -/
def enrollKey (e : Enrollment) : String × String :=
  (e.email, e.course_title)

/-- A list of enrollment records has at most one record per
(email, course_title) pair. -/
def NodupKeys (l : List Enrollment) : Prop :=
  (l.map enrollKey).Nodup

namespace ServerlessDatabase

theorem init_initFlag (s : DBState) : (init s).initFlag = true := by
  unfold init
  split <;> simp_all

theorem init_eq_self {s : DBState} (h : s.initFlag = true) : init s = s := by
  simp [init, h]

theorem init_fileEnrollments (s : DBState) :
    (init s).fileEnrollments = s.fileEnrollments := by
  unfold init
  split <;> rfl

theorem init_fileContacts (s : DBState) :
    (init s).fileContacts = s.fileContacts := by
  unfold init
  split <;> rfl

theorem dedupFirst_cons (x : String) (xs : List String) :
    dedupFirst (x :: xs) = x :: dedupFirst (xs.filter (fun y => y != x)) := by
  rw [dedupFirst]

theorem dedupFirst_sublist (l : List String) : (dedupFirst l).Sublist l := by
  induction l using dedupFirst.induct with
  | case1 => simp [dedupFirst]
  | case2 x xs ih =>
      rw [dedupFirst_cons]
      exact List.Sublist.cons₂ x (ih.trans (List.filter_sublist xs))

theorem mem_dedupFirst (a : String) (l : List String) :
    a ∈ dedupFirst l ↔ a ∈ l := by
  induction l using dedupFirst.induct with
  | case1 => simp [dedupFirst]
  | case2 x xs ih =>
      rw [dedupFirst_cons]
      by_cases hax : a = x
      · subst hax
        simp
      · simp only [List.mem_cons, ih, List.mem_filter]
        constructor
        · rintro (h | ⟨h, _⟩)
          · exact absurd h hax
          · exact Or.inr h
        · rintro (h | h)
          · exact absurd h hax
          · exact Or.inr ⟨h, by simp [bne_iff_ne, hax]⟩

theorem nodup_dedupFirst (l : List String) : (dedupFirst l).Nodup := by
  induction l using dedupFirst.induct with
  | case1 => simp [dedupFirst]
  | case2 x xs ih =>
      rw [dedupFirst_cons]
      refine List.nodup_cons.mpr ⟨?_, ih⟩
      intro hx
      have hmem := (mem_dedupFirst x _).1 hx
      have := (List.mem_filter.1 hmem).2
      simp at this

theorem dedupFirst_perm_dedup (l : List String) :
    (dedupFirst l).Perm l.dedup :=
  (List.perm_ext_iff_of_nodup (nodup_dedupFirst l) (List.nodup_dedup l)).2
    (fun a => by rw [mem_dedupFirst, List.mem_dedup])

theorem length_dedupFirst (l : List String) :
    (dedupFirst l).length = l.dedup.length :=
  (dedupFirst_perm_dedup l).length_eq

theorem sum_count_dedupFirst (l : List String) :
    ((dedupFirst l).map (fun c => l.count c)).sum = l.length := by
  have h := (dedupFirst_perm_dedup l).map (fun c => l.count c)
  rw [h.sum_eq]
  exact List.sum_map_count_dedup_eq_length l

theorem countP_course_eq_count (es : List Enrollment) (c : String) :
    es.countP (fun e => e.course_title == c) = (es.map (·.course_title)).count c := by
  rw [List.count_eq_countP, List.countP_map]
  rfl

end ServerlessDatabase

namespace ServerlessDatabase

theorem enrolledDesc_trans (a b c : Enrollment) (hab : enrolledDesc a b = true)
    (hbc : enrolledDesc b c = true) : enrolledDesc a c = true := by
  simp only [enrolledDesc, decide_eq_true_eq] at *
  omega

theorem enrolledDesc_total (a b : Enrollment) :
    (enrolledDesc a b || enrolledDesc b a) = true := by
  simp only [enrolledDesc, Bool.or_eq_true, decide_eq_true_eq]
  omega

theorem countDesc_trans (a b c : CourseCount) (hab : countDesc a b = true)
    (hbc : countDesc b c = true) : countDesc a c = true := by
  simp only [countDesc, decide_eq_true_eq] at *
  omega

theorem countDesc_total (a b : CourseCount) :
    (countDesc a b || countDesc b a) = true := by
  simp only [countDesc, Bool.or_eq_true, decide_eq_true_eq]
  omega

theorem saveEnrollments_enrollments (s : DBState) (fsOk : Bool) :
    (saveEnrollments s fsOk).enrollments = s.enrollments := by
  unfold saveEnrollments
  split <;> rfl

theorem saveEnrollments_contacts (s : DBState) (fsOk : Bool) :
    (saveEnrollments s fsOk).contactSubmissions = s.contactSubmissions := by
  unfold saveEnrollments
  split <;> rfl

theorem saveEnrollments_initFlag (s : DBState) (fsOk : Bool) :
    (saveEnrollments s fsOk).initFlag = s.initFlag := by
  unfold saveEnrollments
  split <;> rfl

theorem saveEnrollments_fileContacts (s : DBState) (fsOk : Bool) :
    (saveEnrollments s fsOk).fileContacts = s.fileContacts := by
  unfold saveEnrollments
  split <;> rfl

theorem saveContact_enrollments (s : DBState) (fsOk : Bool) :
    (saveContact s fsOk).enrollments = s.enrollments := by
  unfold saveContact
  split <;> rfl

theorem saveContact_contacts (s : DBState) (fsOk : Bool) :
    (saveContact s fsOk).contactSubmissions = s.contactSubmissions := by
  unfold saveContact
  split <;> rfl

theorem saveContact_initFlag (s : DBState) (fsOk : Bool) :
    (saveContact s fsOk).initFlag = s.initFlag := by
  unfold saveContact
  split <;> rfl

theorem saveContact_fileEnrollments (s : DBState) (fsOk : Bool) :
    (saveContact s fsOk).fileEnrollments = s.fileEnrollments := by
  unfold saveContact
  split <;> rfl

end ServerlessDatabase

/-- C7: `init()` is idempotent: after a first call every further call
is a no-op, so calling it twice from any state yields exactly the
state obtained by calling it once. -/
theorem init_idempotent (s : DBState) : init (init s) = init s :=
  init_eq_self (init_initFlag s)

/-- C3: on any (set-up) store state, `getAllEnrollments` returns a
list that is sorted descending by `enrolled_at` and is a permutation
of all the enrollment records in the store, whatever order they were
inserted in. -/
theorem listEnrollments_sorted (s : DBState) (h : s.initFlag = true) :
    (getAllEnrollments s).1.Pairwise
      (fun a b => b.enrolled_at ≤ a.enrolled_at) ∧
    (getAllEnrollments s).1.Perm s.enrollments := by
  have hfst : (getAllEnrollments s).1 = s.enrollments.mergeSort enrolledDesc := by
    simp [getAllEnrollments, init_eq_self h]
  refine ⟨?_, ?_⟩
  · rw [hfst]
    have hs := List.sorted_mergeSort enrolledDesc_trans enrolledDesc_total
      s.enrollments
    exact hs.imp (fun hab => by simpa [enrolledDesc] using hab)
  · rw [hfst]
    exact List.mergeSort_perm s.enrollments enrolledDesc

/-- C8: `getEnrollmentByCourseAndEmail` returns a stored record whose
`course_title` and `email` are exactly the arguments when one exists,
and `none` exactly when no stored record matches; and after a
successful `createEnrollment` for that pair it returns the record that
the insert created. -/
theorem findEnrollment_spec (s : DBState) (c em : String)
    (h : s.initFlag = true) :
    (∀ e, (getEnrollmentByCourseAndEmail s c em).1 = some e →
        e.course_title = c ∧ e.email = em ∧ e ∈ s.enrollments) ∧
    ((getEnrollmentByCourseAndEmail s c em).1 = none →
        ∀ e ∈ s.enrollments, ¬ (e.course_title = c ∧ e.email = em)) ∧
    (∀ (n : String) (now : Nat) (fsOk : Bool) (r : Enrollment) (s' : DBState),
        createEnrollment s em n c now fsOk = (Except.ok r, s') →
        (getEnrollmentByCourseAndEmail s' c em).1 = some r) := by
  have hget : (getEnrollmentByCourseAndEmail s c em).1 =
      s.enrollments.find? (matchesCourseEmail c em) := by
    simp [getEnrollmentByCourseAndEmail, init_eq_self h]
  refine ⟨?_, ?_, ?_⟩
  · intro e he
    rw [hget] at he
    have hp := List.find?_some he
    have hm := List.mem_of_find?_eq_some he
    simp only [matchesCourseEmail, Bool.and_eq_true, beq_iff_eq] at hp
    exact ⟨hp.1, hp.2, hm⟩
  · intro hnone e hmem hc
    rw [hget] at hnone
    have := List.find?_eq_none.1 hnone e hmem
    simp [matchesCourseEmail, hc.1, hc.2] at this
  · intro n now fsOk r s' hc
    have hgets : getEnrollmentByCourseAndEmail s c em =
        (s.enrollments.find? (matchesCourseEmail c em), s) := by
      simp [getEnrollmentByCourseAndEmail, init_eq_self h]
    rw [createEnrollment, hgets] at hc
    cases hfind : s.enrollments.find? (matchesCourseEmail c em) with
    | some e =>
        rw [hfind] at hc
        simp at hc
    | none =>
        rw [hfind] at hc
        simp only [Prod.mk.injEq, Except.ok.injEq] at hc
        obtain ⟨hr, hs'⟩ := hc
        subst hr
        subst hs'
        have hflag : (saveEnrollments
            { s with enrollments := s.enrollments ++
                [⟨now, em, n, c, now⟩] } fsOk).initFlag = true := by
          rw [saveEnrollments_initFlag]
          exact h
        simp [getEnrollmentByCourseAndEmail, init_eq_self hflag,
          saveEnrollments_enrollments, List.find?_append, hfind,
          matchesCourseEmail]

/-- C1: `createEnrollment` checks for an existing record matching
(courseTitle, email): if one exists it fails with the
duplicate-enrollment condition and the store state (in particular the
enrollments collection) is unchanged; otherwise it creates a record
whose identifier and timestamp are the current time, appends it,
persists it (here: with the file write succeeding), and returns it. -/
theorem insertEnrollment_spec (s : DBState) (em n c : String) (now : Nat)
    (h : s.initFlag = true) :
    ((∃ e ∈ s.enrollments, e.course_title = c ∧ e.email = em) →
      ∀ fsOk, createEnrollment s em n c now fsOk =
        (Except.error DBError.duplicateEnrollment, s)) ∧
    ((¬ ∃ e ∈ s.enrollments, e.course_title = c ∧ e.email = em) →
      ∃ r : Enrollment, r.id = now ∧ r.enrolled_at = now ∧ r.email = em ∧
        r.name = n ∧ r.course_title = c ∧
        createEnrollment s em n c now true =
          (Except.ok r,
            { s with
                enrollments := s.enrollments ++ [r]
                fileEnrollments := s.enrollments ++ [r] })) := by
  have hgets : getEnrollmentByCourseAndEmail s c em =
      (s.enrollments.find? (matchesCourseEmail c em), s) := by
    simp [getEnrollmentByCourseAndEmail, init_eq_self h]
  refine ⟨?_, ?_⟩
  · rintro ⟨e, hmem, h1, h2⟩ fsOk
    have hsome : (s.enrollments.find? (matchesCourseEmail c em)).isSome := by
      exact List.find?_isSome.2 ⟨e, hmem, by simp [matchesCourseEmail, h1, h2]⟩
    cases hfind : s.enrollments.find? (matchesCourseEmail c em) with
    | none => rw [hfind] at hsome; simp at hsome
    | some e' =>
        rw [createEnrollment, hgets, hfind]
  · intro hnotex
    cases hfind : s.enrollments.find? (matchesCourseEmail c em) with
    | some e' =>
        exfalso
        apply hnotex
        have hp := List.find?_some hfind
        have hm := List.mem_of_find?_eq_some hfind
        simp only [matchesCourseEmail, Bool.and_eq_true, beq_iff_eq] at hp
        exact ⟨e', hm, hp.1, hp.2⟩
    | none =>
        refine ⟨⟨now, em, n, c, now⟩, rfl, rfl, rfl, rfl, rfl, ?_⟩
        rw [createEnrollment, hgets, hfind]
        simp [saveEnrollments]

/-- C10: on any set-up store state, `createEnrollment` leaves the
contact-submissions collection (in memory and on disk) unchanged, and
`createContactSubmission` leaves the enrollments collection (in memory
and on disk) unchanged. -/
theorem collections_isolated (s : DBState) (em n c na em2 su me : String)
    (now now2 : Nat) (fsOk fsOk2 : Bool) (h : s.initFlag = true) :
    (createEnrollment s em n c now fsOk).2.contactSubmissions =
      s.contactSubmissions ∧
    (createEnrollment s em n c now fsOk).2.fileContacts = s.fileContacts ∧
    (createContactSubmission s na em2 su me now2 fsOk2).2.enrollments =
      s.enrollments ∧
    (createContactSubmission s na em2 su me now2 fsOk2).2.fileEnrollments =
      s.fileEnrollments := by
  have hgets : getEnrollmentByCourseAndEmail s c em =
      (s.enrollments.find? (matchesCourseEmail c em), s) := by
    simp [getEnrollmentByCourseAndEmail, init_eq_self h]
  refine ⟨?_, ?_, ?_, ?_⟩
  · rw [createEnrollment, hgets]
    cases hfind : s.enrollments.find? (matchesCourseEmail c em) with
    | some e => rfl
    | none => simp [saveEnrollments_contacts]
  · rw [createEnrollment, hgets]
    cases hfind : s.enrollments.find? (matchesCourseEmail c em) with
    | some e => rfl
    | none => simp [saveEnrollments_fileContacts]
  · rw [createContactSubmission, init_eq_self h]
    simp [saveContact_enrollments]
  · rw [createContactSubmission, init_eq_self h]
    simp [saveContact_fileEnrollments]

/-- C4: on any set-up store state, `getEnrollmentStats` returns the
total number of enrollment records, the number of distinct email
values among them, and a per-course count list sorted descending by
count, in which each entry carries the exact count of its course and
the courses are exactly the distinct stored course titles.  (It is a
pure function of the store state, so its output — including the order
among equal counts — is deterministic.) -/
theorem enrollmentStats_spec (s : DBState) (h : s.initFlag = true) :
    (getEnrollmentStats s).1.totalEnrollments = s.enrollments.length ∧
    (getEnrollmentStats s).1.uniqueUsers =
      (s.enrollments.map (·.email)).dedup.length ∧
    (getEnrollmentStats s).1.enrollmentsByCourse.Pairwise
      (fun a b => b.enrollments ≤ a.enrollments) ∧
    (∀ cc ∈ (getEnrollmentStats s).1.enrollmentsByCourse,
        cc.enrollments =
          s.enrollments.countP (fun e => e.course_title == cc.course_title)) ∧
    ((getEnrollmentStats s).1.enrollmentsByCourse.map (·.course_title)).Perm
      (s.enrollments.map (·.course_title)).dedup := by
  have hby : (getEnrollmentStats s).1.enrollmentsByCourse =
      ((dedupFirst (s.enrollments.map (·.course_title))).map
        (fun c => CourseCount.mk c
          (s.enrollments.countP (fun e => e.course_title == c)))).mergeSort
        countDesc := by
    simp [getEnrollmentStats, init_eq_self h]
  refine ⟨?_, ?_, ?_, ?_, ?_⟩
  · simp [getEnrollmentStats, init_eq_self h]
  · simp [getEnrollmentStats, init_eq_self h, length_dedupFirst]
  · rw [hby]
    have hs := List.sorted_mergeSort countDesc_trans countDesc_total
      ((dedupFirst (s.enrollments.map (·.course_title))).map
        (fun c => CourseCount.mk c
          (s.enrollments.countP (fun e => e.course_title == c))))
    exact hs.imp (fun hab => by simpa [countDesc] using hab)
  · intro cc hcc
    rw [hby] at hcc
    have hmem := (List.mergeSort_perm _ countDesc).mem_iff.1 hcc
    obtain ⟨c, _, hmk⟩ := List.mem_map.1 hmem
    subst hmk
    rfl
  · rw [hby]
    have hperm := (List.mergeSort_perm
      ((dedupFirst (s.enrollments.map (·.course_title))).map
        (fun c => CourseCount.mk c
          (s.enrollments.countP (fun e => e.course_title == c)))) countDesc).map
      (·.course_title)
    refine hperm.trans ?_
    rw [List.map_map]
    have hid : ((fun cc : CourseCount => cc.course_title) ∘
        (fun c => CourseCount.mk c
          (s.enrollments.countP (fun e => e.course_title == c)))) = id := by
      funext c
      rfl
    rw [hid, List.map_id]
    exact dedupFirst_perm_dedup _

/-- C9: the result of `getEnrollmentStats` is internally consistent:
the per-course counts sum to `totalEnrollments`, `totalEnrollments` is
the number of stored enrollment records, and `uniqueUsers` is at most
`totalEnrollments`. -/
theorem stats_consistent (s : DBState) (h : s.initFlag = true) :
    ((getEnrollmentStats s).1.enrollmentsByCourse.map (·.enrollments)).sum =
      (getEnrollmentStats s).1.totalEnrollments ∧
    (getEnrollmentStats s).1.totalEnrollments = s.enrollments.length ∧
    (getEnrollmentStats s).1.uniqueUsers ≤
      (getEnrollmentStats s).1.totalEnrollments := by
  have hby : (getEnrollmentStats s).1.enrollmentsByCourse =
      ((dedupFirst (s.enrollments.map (·.course_title))).map
        (fun c => CourseCount.mk c
          (s.enrollments.countP (fun e => e.course_title == c)))).mergeSort
        countDesc := by
    simp [getEnrollmentStats, init_eq_self h]
  refine ⟨?_, ?_, ?_⟩
  · rw [hby]
    have hperm := (List.mergeSort_perm
      ((dedupFirst (s.enrollments.map (·.course_title))).map
        (fun c => CourseCount.mk c
          (s.enrollments.countP (fun e => e.course_title == c)))) countDesc).map
      (·.enrollments)
    rw [hperm.sum_eq, List.map_map]
    have hcongr : ((fun cc : CourseCount => cc.enrollments) ∘
        (fun c => CourseCount.mk c
          (s.enrollments.countP (fun e => e.course_title == c)))) =
        (fun c => (s.enrollments.map (·.course_title)).count c) := by
      funext c
      exact countP_course_eq_count s.enrollments c
    rw [hcongr, sum_count_dedupFirst, List.length_map]
    simp [getEnrollmentStats, init_eq_self h]
  · simp [getEnrollmentStats, init_eq_self h]
  · have hsub := (dedupFirst_sublist (s.enrollments.map (·.email))).length_le
    simp only [getEnrollmentStats, init_eq_self h]
    simpa using hsub

theorem nodupKeys_of_perm {l l' : List Enrollment} (hp : l.Perm l')
    (h : NodupKeys l) : NodupKeys l' :=
  ((hp.map enrollKey).nodup_iff).1 h

theorem nodupKeys_append_fresh {l : List Enrollment} {e : Enrollment}
    (h : NodupKeys l) (hf : ∀ x ∈ l, enrollKey x ≠ enrollKey e) :
    NodupKeys (l ++ [e]) := by
  unfold NodupKeys at *
  rw [List.map_append, List.nodup_append]
  refine ⟨h, List.nodup_singleton _, ?_⟩
  intro a ha hb
  obtain ⟨x, hx, rfl⟩ := List.mem_map.1 ha
  simp only [List.map_cons, List.map_nil, List.mem_singleton] at hb
  exact hf x hx hb

/-- The uniqueness invariant: per-pair uniqueness holds of the
in-memory enrollments and of the persisted enrollments file. -/
def StoreInv (s : DBState) : Prop :=
  NodupKeys s.enrollments ∧ NodupKeys s.fileEnrollments

theorem storeInv_init {s : DBState} (h : StoreInv s) : StoreInv (init s) := by
  unfold init
  split
  · exact h
  · exact ⟨h.2, h.2⟩

theorem storeInv_step {s s' : DBState} (h : StoreInv s) (hs : DBStep s s') :
    StoreInv s' := by
  cases hs with
  | initS => exact storeInv_init h
  | listE =>
      have h1 := storeInv_init h
      have heq : (getAllEnrollments s).2 =
          { init s with
            enrollments := (init s).enrollments.mergeSort enrolledDesc } := by
        simp [getAllEnrollments]
      rw [heq]
      exact ⟨nodupKeys_of_perm (List.mergeSort_perm _ _).symm h1.1, h1.2⟩
  | findE c e =>
      have heq : (getEnrollmentByCourseAndEmail s c e).2 = init s := by
        simp [getEnrollmentByCourseAndEmail]
      rw [heq]
      exact storeInv_init h
  | createE em n c now fsOk =>
      have h1 := storeInv_init h
      have hgets : getEnrollmentByCourseAndEmail s c em =
          ((init s).enrollments.find? (matchesCourseEmail c em), init s) := by
        simp [getEnrollmentByCourseAndEmail]
      cases hfind : (init s).enrollments.find? (matchesCourseEmail c em) with
      | some e =>
          have heq : (createEnrollment s em n c now fsOk).2 = init s := by
            rw [createEnrollment, hgets, hfind]
          rw [heq]
          exact storeInv_init h
      | none =>
          have hfresh : ∀ x ∈ (init s).enrollments,
              enrollKey x ≠ enrollKey ⟨now, em, n, c, now⟩ := by
            intro x hx hk
            have := List.find?_eq_none.1 hfind x hx
            simp only [enrollKey, Prod.mk.injEq] at hk
            simp [matchesCourseEmail, hk.1, hk.2] at this
          have hnodup : NodupKeys ((init s).enrollments ++
              [⟨now, em, n, c, now⟩]) :=
            nodupKeys_append_fresh h1.1 hfresh
          have heq : (createEnrollment s em n c now fsOk).2 =
              saveEnrollments
                { init s with
                  enrollments := (init s).enrollments ++
                    [⟨now, em, n, c, now⟩] } fsOk := by
            rw [createEnrollment, hgets, hfind]
          rw [heq]
          unfold saveEnrollments
          split
          · exact ⟨hnodup, hnodup⟩
          · exact ⟨hnodup, h1.2⟩
  | statsE =>
      have heq : (getEnrollmentStats s).2 = init s := by
        simp [getEnrollmentStats]
      rw [heq]
      exact storeInv_init h
  | createC n em su me now fsOk =>
      have h1 := storeInv_init h
      constructor
      · rw [createContactSubmission]
        simp only [saveContact_enrollments]
        exact h1.1
      · rw [createContactSubmission]
        simp only [saveContact_fileEnrollments]
        exact h1.2
  | listC =>
      have h1 := storeInv_init h
      have heq : (getAllContactSubmissions s).2 =
          { init s with
            contactSubmissions :=
              (init s).contactSubmissions.mergeSort submittedDesc } := by
        simp [getAllContactSubmissions]
      rw [heq]
      exact ⟨h1.1, h1.2⟩

theorem storeInv_reachable {s : DBState} (h : DBReachable s) : StoreInv s := by
  induction h with
  | empty => exact ⟨List.nodup_nil, List.nodup_nil⟩
  | step _ hs ih => exact storeInv_step ih hs

/-- C2: in every state reachable from the empty store by any sequence
of store operations, the enrollments collection has at most one record
per (email, course_title) pair. -/
theorem enrollments_nodup_keys (s : DBState) (h : DBReachable s) :
    NodupKeys s.enrollments :=
  (storeInv_reachable h).1

/-- C5 counterexample: when the underlying file write fails,
`createEnrollment` still returns success — the save helper swallows
the error — while the enrollments file does not contain the new
record. -/
theorem persist_failure_cex :
    (createEnrollment emptyStore "a@x.com" "Ann" "Intro" 5 false).1 =
      Except.ok ⟨5, "a@x.com", "Ann", "Intro", 5⟩ ∧
    (createEnrollment emptyStore "a@x.com" "Ann" "Intro" 5 false).2.enrollments =
      [⟨5, "a@x.com", "Ann", "Intro", 5⟩] ∧
    (createEnrollment emptyStore "a@x.com" "Ann" "Intro" 5 false).2.fileEnrollments =
      [] := by
  refine ⟨rfl, rfl, rfl⟩

/-- C5 (amended): mutating operations attempt the file write before
returning and, when the write succeeds, the new record is in the
backing file at return; a failed write, however, is caught and logged
and the operation still reports success. -/
theorem persist_on_success (s : DBState) (em n c na em2 su me : String)
    (now now2 : Nat) (r : Enrollment) (s' : DBState)
    (h : createEnrollment s em n c now true = (Except.ok r, s')) :
    (s'.fileEnrollments = s'.enrollments ∧ r ∈ s'.fileEnrollments) ∧
    ((createContactSubmission s na em2 su me now2 true).2.fileContacts =
        (createContactSubmission s na em2 su me now2 true).2.contactSubmissions ∧
      (createContactSubmission s na em2 su me now2 true).1 ∈
        (createContactSubmission s na em2 su me now2 true).2.fileContacts) := by
  have hgets : getEnrollmentByCourseAndEmail s c em =
      ((init s).enrollments.find? (matchesCourseEmail c em), init s) := by
    simp [getEnrollmentByCourseAndEmail]
  constructor
  · rw [createEnrollment, hgets] at h
    cases hfind : (init s).enrollments.find? (matchesCourseEmail c em) with
    | some e =>
        rw [hfind] at h
        simp at h
    | none =>
        rw [hfind] at h
        simp only [Prod.mk.injEq, Except.ok.injEq] at h
        obtain ⟨hr, hs'⟩ := h
        subst hr
        subst hs'
        constructor
        · simp [saveEnrollments]
        · simp [saveEnrollments]
  · constructor
    · rw [createContactSubmission]
      simp [saveContact]
    · rw [createContactSubmission]
      simp [saveContact]

/-- C6 counterexample: two inserts performed at the same millisecond
both succeed (different emails) but receive the same identifier
`Date.now()`, so generated identifiers are not pairwise distinct. -/
theorem timestampId_collision :
    (createEnrollment emptyStore "a@x.com" "Ann" "CourseA" 7 true).1 =
      Except.ok ⟨7, "a@x.com", "Ann", "CourseA", 7⟩ ∧
    (createEnrollment
        (createEnrollment emptyStore "a@x.com" "Ann" "CourseA" 7 true).2
        "b@x.com" "Bob" "CourseA" 7 true).1 =
      Except.ok ⟨7, "b@x.com", "Bob", "CourseA", 7⟩ := by
  constructor
  · rfl
  · rfl

/-- C6 (amended): the identifier of every record created by a
successful insert equals the wall-clock millisecond timestamp of the
call, so inserts performed at pairwise distinct timestamps receive
pairwise distinct identifiers; inserts within the same millisecond can
collide. -/
theorem ids_eq_timestamp (s t u : DBState)
    (em n c em2 n2 c2 na em3 su me : String) (now1 now2 now3 : Nat)
    (f1 f2 f3 : Bool) (r1 r2 : Enrollment)
    (h1 : (createEnrollment s em n c now1 f1).1 = Except.ok r1)
    (h2 : (createEnrollment t em2 n2 c2 now2 f2).1 = Except.ok r2)
    (hne : now1 ≠ now2) :
    r1.id = now1 ∧ r2.id = now2 ∧
    (createContactSubmission u na em3 su me now3 f3).1.id = now3 ∧
    r1.id ≠ r2.id := by
  have hid : ∀ (v : DBState) (a b d : String) (k : Nat) (f : Bool)
      (r : Enrollment),
      (createEnrollment v a b d k f).1 = Except.ok r → r.id = k := by
    intro v a b d k f r hr
    have hv : getEnrollmentByCourseAndEmail v d a =
        ((init v).enrollments.find? (matchesCourseEmail d a), init v) := by
      simp [getEnrollmentByCourseAndEmail]
    rw [createEnrollment, hv] at hr
    cases hfind : (init v).enrollments.find? (matchesCourseEmail d a) with
    | some e =>
        rw [hfind] at hr
        simp at hr
    | none =>
        rw [hfind] at hr
        simp only [Except.ok.injEq] at hr
        subst hr
        rfl
  have hr1 := hid s em n c now1 f1 r1 h1
  have hr2 := hid t em2 n2 c2 now2 f2 r2 h2
  refine ⟨hr1, hr2, rfl, ?_⟩
  rw [hr1, hr2]
  exact hne

/-- A concrete two-record store state used to instantiate theorems
with hypotheses. -/
def sampleState : DBState :=
  ⟨[⟨5, "a@x.com", "Ann", "Intro", 5⟩, ⟨9, "b@x.com", "Bob", "Algebra", 9⟩],
   [], true,
   [⟨5, "a@x.com", "Ann", "Intro", 5⟩, ⟨9, "b@x.com", "Bob", "Algebra", 9⟩],
   []⟩

/-- Witness for C1 at a concrete two-record store. -/
theorem insertEnrollment_spec_witness :
    sampleState.initFlag = true ∧
    (((∃ e ∈ sampleState.enrollments,
          e.course_title = "Intro" ∧ e.email = "a@x.com") →
        ∀ fsOk, createEnrollment sampleState "a@x.com" "Ann" "Intro" 11 fsOk =
          (Except.error DBError.duplicateEnrollment, sampleState)) ∧
      ((¬ ∃ e ∈ sampleState.enrollments,
          e.course_title = "Intro" ∧ e.email = "a@x.com") →
        ∃ r : Enrollment, r.id = 11 ∧ r.enrolled_at = 11 ∧
          r.email = "a@x.com" ∧ r.name = "Ann" ∧ r.course_title = "Intro" ∧
          createEnrollment sampleState "a@x.com" "Ann" "Intro" 11 true =
            (Except.ok r,
              { sampleState with
                  enrollments := sampleState.enrollments ++ [r]
                  fileEnrollments := sampleState.enrollments ++ [r] }))) :=
  ⟨rfl, insertEnrollment_spec sampleState "a@x.com" "Ann" "Intro" 11 rfl⟩

/-- Witness for C2 at a concrete reachable state (one successful
insert from the empty store). -/
theorem enrollments_nodup_keys_witness :
    DBReachable (createEnrollment emptyStore "a@x.com" "Ann" "Intro" 5 true).2 ∧
    NodupKeys
      (createEnrollment emptyStore "a@x.com" "Ann" "Intro" 5 true).2.enrollments :=
  ⟨DBReachable.step DBReachable.empty
      (DBStep.createE emptyStore "a@x.com" "Ann" "Intro" 5 true),
   enrollments_nodup_keys _
     (DBReachable.step DBReachable.empty
       (DBStep.createE emptyStore "a@x.com" "Ann" "Intro" 5 true))⟩

/-- Witness for C3 at a concrete two-record store. -/
theorem listEnrollments_sorted_witness :
    sampleState.initFlag = true ∧
    ((getAllEnrollments sampleState).1.Pairwise
        (fun a b => b.enrolled_at ≤ a.enrolled_at) ∧
      (getAllEnrollments sampleState).1.Perm sampleState.enrollments) :=
  ⟨rfl, listEnrollments_sorted sampleState rfl⟩

/-- Witness for C4 at a concrete two-record store. -/
theorem enrollmentStats_spec_witness :
    sampleState.initFlag = true ∧
    ((getEnrollmentStats sampleState).1.totalEnrollments =
        sampleState.enrollments.length ∧
      (getEnrollmentStats sampleState).1.uniqueUsers =
        (sampleState.enrollments.map (·.email)).dedup.length ∧
      (getEnrollmentStats sampleState).1.enrollmentsByCourse.Pairwise
        (fun a b => b.enrollments ≤ a.enrollments) ∧
      (∀ cc ∈ (getEnrollmentStats sampleState).1.enrollmentsByCourse,
          cc.enrollments = sampleState.enrollments.countP
            (fun e => e.course_title == cc.course_title)) ∧
      ((getEnrollmentStats sampleState).1.enrollmentsByCourse.map
          (·.course_title)).Perm
        (sampleState.enrollments.map (·.course_title)).dedup) :=
  ⟨rfl, enrollmentStats_spec sampleState rfl⟩

/-- Witness for the amended C5 at a concrete store. -/
theorem persist_on_success_witness :
    ((createEnrollment emptyStore "a@x.com" "Ann" "Intro" 5 true).2.fileEnrollments =
        (createEnrollment emptyStore "a@x.com" "Ann" "Intro" 5 true).2.enrollments ∧
      (⟨5, "a@x.com", "Ann", "Intro", 5⟩ : Enrollment) ∈
        (createEnrollment emptyStore "a@x.com" "Ann" "Intro" 5 true).2.fileEnrollments) ∧
    ((createContactSubmission emptyStore "Cara" "c@x.com" "Hi" "Msg" 6 true).2.fileContacts =
        (createContactSubmission emptyStore "Cara" "c@x.com" "Hi" "Msg" 6 true).2.contactSubmissions ∧
      (createContactSubmission emptyStore "Cara" "c@x.com" "Hi" "Msg" 6 true).1 ∈
        (createContactSubmission emptyStore "Cara" "c@x.com" "Hi" "Msg" 6 true).2.fileContacts) :=
  persist_on_success emptyStore "a@x.com" "Ann" "Intro" "Cara" "c@x.com" "Hi"
    "Msg" 5 6 ⟨5, "a@x.com", "Ann", "Intro", 5⟩
    (createEnrollment emptyStore "a@x.com" "Ann" "Intro" 5 true).2 rfl

/-- Witness for the amended C6 at concrete distinct timestamps. -/
theorem ids_eq_timestamp_witness :
    (⟨1, "a@x.com", "Ann", "Intro", 1⟩ : Enrollment).id = 1 ∧
    (⟨2, "b@x.com", "Bob", "Intro", 2⟩ : Enrollment).id = 2 ∧
    (createContactSubmission emptyStore "Cara" "c@x.com" "Hi" "Msg" 3 true).1.id = 3 ∧
    (⟨1, "a@x.com", "Ann", "Intro", 1⟩ : Enrollment).id ≠
      (⟨2, "b@x.com", "Bob", "Intro", 2⟩ : Enrollment).id :=
  ids_eq_timestamp emptyStore emptyStore emptyStore "a@x.com" "Ann" "Intro"
    "b@x.com" "Bob" "Intro" "Cara" "c@x.com" "Hi" "Msg" 1 2 3 true true true
    ⟨1, "a@x.com", "Ann", "Intro", 1⟩ ⟨2, "b@x.com", "Bob", "Intro", 2⟩
    rfl rfl (by decide)

/-- Witness for C8 at a concrete two-record store. -/
theorem findEnrollment_spec_witness :
    sampleState.initFlag = true ∧
    ((∀ e, (getEnrollmentByCourseAndEmail sampleState "Intro" "a@x.com").1 =
          some e →
        e.course_title = "Intro" ∧ e.email = "a@x.com" ∧
          e ∈ sampleState.enrollments) ∧
      ((getEnrollmentByCourseAndEmail sampleState "Intro" "a@x.com").1 = none →
        ∀ e ∈ sampleState.enrollments,
          ¬ (e.course_title = "Intro" ∧ e.email = "a@x.com")) ∧
      (∀ (n : String) (now : Nat) (fsOk : Bool) (r : Enrollment) (s' : DBState),
        createEnrollment sampleState "a@x.com" n "Intro" now fsOk =
          (Except.ok r, s') →
        (getEnrollmentByCourseAndEmail s' "Intro" "a@x.com").1 = some r)) :=
  ⟨rfl, findEnrollment_spec sampleState "Intro" "a@x.com" rfl⟩

/-- Witness for C9 at a concrete two-record store. -/
theorem stats_consistent_witness :
    sampleState.initFlag = true ∧
    (((getEnrollmentStats sampleState).1.enrollmentsByCourse.map
        (·.enrollments)).sum =
      (getEnrollmentStats sampleState).1.totalEnrollments ∧
    (getEnrollmentStats sampleState).1.totalEnrollments =
      sampleState.enrollments.length ∧
    (getEnrollmentStats sampleState).1.uniqueUsers ≤
      (getEnrollmentStats sampleState).1.totalEnrollments) :=
  ⟨rfl, stats_consistent sampleState rfl⟩

/-- Witness for C10 at a concrete two-record store. -/
theorem collections_isolated_witness :
    sampleState.initFlag = true ∧
    ((createEnrollment sampleState "d@x.com" "Dee" "Logic" 12 true).2.contactSubmissions =
        sampleState.contactSubmissions ∧
      (createEnrollment sampleState "d@x.com" "Dee" "Logic" 12 true).2.fileContacts =
        sampleState.fileContacts ∧
      (createContactSubmission sampleState "Cara" "c@x.com" "Hi" "Msg" 13 false).2.enrollments =
        sampleState.enrollments ∧
      (createContactSubmission sampleState "Cara" "c@x.com" "Hi" "Msg" 13 false).2.fileEnrollments =
        sampleState.fileEnrollments) :=
  ⟨rfl, collections_isolated sampleState "d@x.com" "Dee" "Logic" "Cara"
      "c@x.com" "Hi" "Msg" 12 13 true false rfl⟩
